import Mathlib

/- Formal model of the Narrekappe Proxmox admin application: the user
   directory operations and VM lifecycle (deploy / stop) of the SSH-based
   module, the REST-based module helpers, and the CSV bulk-import workflow.
   JavaScript strings are Lean strings, awaited remote effects are explicit
   traces of issued commands, and thrown errors are Except errors. -/

deriving instance DecidableEq for Except

/-- Substring scan over character lists, true when the first list occurs
    inside the second (model of JavaScript String.prototype.includes). -/
def includesL (sub : List Char) : List Char → Bool
  | [] => sub.isEmpty
  | c :: rest => sub.isPrefixOf (c :: rest) || includesL sub rest

/-- Model of JavaScript includes on strings. -/
def jsIncludes (s sub : String) : Bool := includesL sub.data s.data

/-- Trim of a character list: drop whitespace from both ends. -/
def jsTrimL (cs : List Char) : List Char :=
  ((cs.dropWhile Char.isWhitespace).reverse.dropWhile Char.isWhitespace).reverse

/-- Model of JavaScript String.prototype.trim (the whitespace classes agree
    on the ascii inputs this application handles). -/
def jsTrim (s : String) : String := String.mk (jsTrimL s.data)

/-- Decimal digits of a natural number, least significant first.  Fuel-based
    so the recursion is structural; fuel n always suffices. -/
def digitsRevAux : Nat → Nat → List Nat
  | 0, n => [n]
  | fuel+1, n => if n < 10 then [n] else n % 10 :: digitsRevAux fuel (n / 10)

/-- Decimal digits, least significant first. -/
def digitsRev (n : Nat) : List Nat := digitsRevAux n n

/-- Decimal rendering of a natural number: the model of the JavaScript
    number-to-string conversion for the nonnegative integers the code uses. -/
def natStr (n : Nat) : String := String.mk ((digitsRev n).reverse.map Nat.digitChar)

/-- Value of a least-significant-first digit list, inverse of digitsRev. -/
def ofDigitsRev (ds : List Nat) : Nat := ds.foldr (fun d acc => acc * 10 + d) 0

/-- Observable effect of the SSH module: one remote command execution, or a
    client-side sleep of the given milliseconds. -/
inductive Ev
  | exec (cmd : String)
  | sleep (ms : Nat)
deriving Repr, DecidableEq

/-- Abstract remote endpoint: given the history of effects so far and a
    command, the outcome of awaiting execSSH on that command (the resolved
    trimmed stdout, or the rejection message). -/
structure SshEnv where
  run : List Ev → String → Except String String

/-- Effectful computation of the SSH module: state passing over the effect
    trace, with thrown JavaScript errors as Except errors.  The trace
    survives a rejection, because the effects already happened by the time a
    promise rejects. -/
def M (α : Type) : Type := List Ev → Except String α × List Ev

/-- Pure computation. -/
def mPure {α : Type} (a : α) : M α := fun tr => (.ok a, tr)

/-- Sequencing: an error short-circuits but keeps the trace. -/
def mBind {α β : Type} (x : M α) (f : α → M β) : M β := fun tr =>
  match x tr with
  | (.ok a, tr2) => f a tr2
  | (.error e, tr2) => (.error e, tr2)

instance : Monad M where
  pure := mPure
  bind := mBind

/-- Model of a JavaScript throw (promise rejection). -/
def throwM {α : Type} (e : String) : M α := fun tr => (.error e, tr)

/-- Model of a JavaScript try/catch block. -/
def catchM {α : Type} (x : M α) (h : String → M α) : M α := fun tr =>
  match x tr with
  | (.ok a, tr2) => (.ok a, tr2)
  | (.error e, tr2) => h e tr2

/-- One awaited execSSH call: records the command and returns whatever
    outcome the endpoint assigns to it at this point of the history. -/
def execSSHM (env : SshEnv) (cmd : String) : M String := fun tr =>
  match env.run tr cmd with
  | .ok out => (.ok out, tr ++ [.exec cmd])
  | .error e => (.error e, tr ++ [.exec cmd])

/-- Model of an awaited setTimeout. -/
def sleepM (ms : Nat) : M Unit := fun tr => (.ok (), tr ++ [.sleep ms])

/-- Close handler of execSSH (src/unnamed/part_000, lines 33 to 40): given
    the remote exit code and the accumulated stdout and stderr, the promise
    rejects with a command failure exactly when the exit code is nonzero AND
    stderr is nonempty; in every other case it resolves with the trimmed
    stdout. -/
def execSSHResult (code : Int) (output errorOutput : String) : Except String String :=
  if code ≠ 0 ∧ errorOutput ≠ "" then
    .error ("Command failed (" ++ toString code ++ "): " ++ errorOutput)
  else
    .ok (jsTrim output)

/-- Metadata decoded from a user comment field. -/
structure UserMeta where
  email : String
  fullName : String
deriving Repr, DecidableEq

/-- The apostrophe character, kept out of literals for hygiene. -/
def apos : Char := Char.ofNat 39

/-- One-character string holding the apostrophe. -/
def aposS : String := String.mk [apos]

/-- Opening curly brace character. -/
def lbrace : Char := Char.ofNat 123

/-- Closing curly brace character. -/
def rbrace : Char := Char.ofNat 125

/-- Model of the replace of apostrophes by backslash-apostrophe applied to
    comment and description payloads before shell quoting. -/
def escapeApos (s : String) : String :=
  String.mk (s.data.foldr (fun c acc => if c = apos then '\\' :: apos :: acc else c :: acc) [])

namespace SshApi

/-- Escape interpretation inside a JSON string literal (the single-character
    escapes; unicode escapes are outside the modelled subset). -/
def jsonUnescape (c : Char) : Option Char :=
  if c = '"' ∨ c = '\\' ∨ c = '/' then some c
  else if c = 'n' then some (Char.ofNat 10)
  else if c = 't' then some (Char.ofNat 9)
  else if c = 'r' then some (Char.ofNat 13)
  else if c = 'b' then some (Char.ofNat 8)
  else if c = 'f' then some (Char.ofNat 12)
  else none

/-- Parse a JSON string body up to the closing quote; returns the decoded
    content and the remaining input. -/
def parseJsonString : List Char → Option (List Char × List Char)
  | [] => none
  | c :: rest =>
    if c = '"' then some ([], rest)
    else if c = '\\' then
      match rest with
      | [] => none
      | e :: rest2 =>
        match jsonUnescape e with
        | some ch =>
          match parseJsonString rest2 with
          | some (s, r) => some (ch :: s, r)
          | none => none
        | none => none
    else
      match parseJsonString rest with
      | some (s, r) => some (c :: s, r)
      | none => none

/-- Skip JSON whitespace. -/
def skipWs (cs : List Char) : List Char := cs.dropWhile Char.isWhitespace

/-- Parse the members of a flat JSON object with string keys and string
    values, accumulating key-value pairs in input order.  Fuel-based; fuel
    above the input length always suffices. -/
def parseMembers : Nat → List Char → List (String × String) → Option (List (String × String))
  | 0, _, _ => none
  | fuel+1, cs, acc =>
    match skipWs cs with
    | '"' :: rest =>
      match parseJsonString rest with
      | none => none
      | some (key, r1) =>
        match skipWs r1 with
        | ':' :: r2 =>
          match skipWs r2 with
          | '"' :: r3 =>
            match parseJsonString r3 with
            | none => none
            | some (val, r4) =>
              let acc2 := acc ++ [(String.mk key, String.mk val)]
              match skipWs r4 with
              | [] => none
              | c :: r5 =>
                if c = ',' then parseMembers fuel r5 acc2
                else if c = rbrace then (if (skipWs r5).isEmpty then some acc2 else none)
                else none
          | _ => none
        | _ => none
    | _ => none

/-- Model of JSON.parse restricted to the payloads this application writes:
    a flat object whose keys and values are JSON strings (whitespace
    allowed).  Any input outside this subset parses to none, the model of a
    JSON.parse exception. -/
def jsonParseFlatObj (s : String) : Option (List (String × String)) :=
  match skipWs s.data with
  | [] => none
  | c :: rest =>
    if c = lbrace then
      match skipWs rest with
      | [] => none
      | d :: rest2 =>
        if d = rbrace then (if (skipWs rest2).isEmpty then some [] else none)
        else parseMembers (rest.length + 1) rest []
    else none

/-- Last-assignment-wins lookup, matching how repeated keys behave on a
    JavaScript object literal. -/
def lastValue (kvs : List (String × String)) (key : String) : Option String :=
  kvs.foldl (fun acc kv => if kv.1 = key then some kv.2 else acc) none

/-- decodeComment of the SSH module (src/unnamed/part_000, lines 89 to 99):
    JSON.parse of the comment, with the empty object substituted for a
    missing or empty comment; email and fullName default to the empty string
    via logical-or, and any parse failure is caught and yields both fields
    empty. -/
def decodeComment (comment : Option String) : UserMeta :=
  let s := match comment with
    | none => "\x7b\x7d"
    | some c => if c = "" then "\x7b\x7d" else c
  match jsonParseFlatObj s with
  | some kvs =>
    { email := (lastValue kvs "email").getD "", fullName := (lastValue kvs "fullName").getD "" }
  | none => { email := "", fullName := "" }

/-- JSON escaping of a string value (quote and backslash; control characters
    do not occur in the payloads this application writes). -/
def jsonQuote (s : String) : String :=
  "\"" ++ String.mk (s.data.foldr (fun c acc =>
    if c = '"' then '\\' :: '"' :: acc
    else if c = '\\' then '\\' :: '\\' :: acc
    else c :: acc) []) ++ "\""

/-- JSON.stringify of the two-field comment object written by the SSH
    createUser, fields in insertion order. -/
def stringifyComment (fullName email : String) : String :=
  "\x7b\"fullName\":" ++ jsonQuote fullName ++ ",\"email\":" ++ jsonQuote email ++ "\x7d"

/-- The pveum user add command issued by the SSH createUser, comment quoted
    with apostrophes and apostrophes inside it backslash-escaped. -/
def userAddCmd (userid fullName password : String) : String :=
  "pveum user add \"" ++ userid ++ "\" --password \"" ++ password ++ "\" --comment "
    ++ aposS
    ++ escapeApos (stringifyComment fullName (String.mk (userid.data.takeWhile (fun c => c != '@'))))
    ++ aposS

/-- Result of a successful user creation. -/
structure CreatedUser where
  userid : String
  fullName : String
deriving Repr, DecidableEq

/-- proxmoxCreateUser of the SSH module (src/unnamed/part_000, lines 74 to
    80): builds the comment JSON from the full name and the part of the
    userid before the at sign, then immediately issues pveum user add.  This
    implementation performs no password validation of any kind. -/
def proxmoxCreateUser (env : SshEnv) (userid fullName password : String) : M CreatedUser := do
  let _ ← execSSHM env (userAddCmd userid fullName password)
  pure { userid := userid, fullName := fullName }

/-- Probe command of the VMID allocation loop. -/
def statusCmd (vmid : Nat) : String := s!"qm status {vmid} 2>/dev/null"

/-- Config read command. -/
def configCmd (vmid : Nat) : String := s!"qm config {vmid}"

/-- ARP lookup command for a hardware address. -/
def arpCmd (mac : String) : String := "arp -n | grep -i \"" ++ mac ++ "\" || true"

/-- Best-effort destroy used in the deploy cleanup path. -/
def destroyCleanupCmd (vmid : Nat) : String := s!"qm destroy {vmid} --purge 2>/dev/null || true"

/-- Graceful stop command of stopVM. -/
def stopCmd (vmid : Nat) : String := s!"qm stop {vmid} 2>/dev/null || true"

/-- Destroy command of stopVM. -/
def destroyCmd (vmid : Nat) : String := s!"qm destroy {vmid} --purge"

/-- Backing disk path of a template. -/
def diskPathOf (vmName : String) : String :=
  "/var/lib/vz/template/qemu/" ++ vmName ++ "-disk0.qcow2"

/-- Template existence test command. -/
def testCmd (vmName : String) : String := "test -f \"" ++ diskPathOf vmName ++ "\""

/-- VM shell creation command. -/
def createCmd (vmid : Nat) (name : String) (memory cores : Nat) : String :=
  s!"qm create {vmid} --name \"{name}\" --memory {memory} --cores {cores} --net0 virtio,bridge=vmbr1"

/-- Disk import command. -/
def importdiskCmd (vmid : Nat) (diskPath : String) : String :=
  s!"qm importdisk {vmid} \"{diskPath}\" local-lvm"

/-- Boot disk attach command. -/
def scsiCmd (vmid : Nat) : String :=
  s!"qm set {vmid} --scsihw virtio-scsi-pci --scsi0 local-lvm:vm-{vmid}-disk-0"

/-- Boot order command. -/
def bootCmd (vmid : Nat) : String := s!"qm set {vmid} --boot order=scsi0"

/-- Display option command. -/
def vgaCmd (vmid : Nat) : String := s!"qm set {vmid} --vga std"

/-- Description (metadata blob) command; the serialized blob is passed in as
    a parameter because it embeds wall-clock timestamps. -/
def descCmd (vmid : Nat) (metaJson : String) : String :=
  s!"qm set {vmid} --description " ++ aposS ++ escapeApos metaJson ++ aposS

/-- VM start command. -/
def startCmd (vmid : Nat) : String := s!"qm start {vmid}"

/-- Hardware-address characters accepted by the virtio capture group. -/
def isHexColonChar (c : Char) : Bool :=
  c.isDigit || (decide ('a' ≤ c) && decide (c ≤ 'f')) || (decide ('A' ≤ c) && decide (c ≤ 'F')) || c == ':'

/-- Marker preceding the hardware address in a config dump. -/
def virtioMark : List Char := "virtio=".data

/-- First-match scan of the virtio hardware-address pattern: at each
    position, the literal marker followed by at least one hex-or-colon
    character, captured greedily, matching the JS regex semantics. -/
def virtioScan : List Char → Option (List Char)
  | [] => none
  | c :: rest =>
    if virtioMark.isPrefixOf (c :: rest) then
      let run := ((c :: rest).drop virtioMark.length).takeWhile isHexColonChar
      if run.isEmpty then virtioScan rest else some run
    else virtioScan rest

/-- Hardware-address extraction of deployVM (line 255): first match of the
    virtio pattern in the config text. -/
def matchVirtioMac (s : String) : Option String := (virtioScan s.data).map String.mk

/-- Greedy run of digits plus the rest. -/
def digitsTake (cs : List Char) : List Char × List Char :=
  (cs.takeWhile Char.isDigit, cs.dropWhile Char.isDigit)

/-- Dotted-quad match anchored at the start of the input: four nonempty digit
    runs separated by literal dots (greedy digits never need backtracking
    because a digit can not satisfy the dot). -/
def ipv4At (cs : List Char) : Option (List Char) :=
  let (d1, r1) := digitsTake cs
  if d1.isEmpty then none else
  match r1 with
  | '.' :: r1b =>
    let (d2, r2) := digitsTake r1b
    if d2.isEmpty then none else
    match r2 with
    | '.' :: r2b =>
      let (d3, r3) := digitsTake r2b
      if d3.isEmpty then none else
      match r3 with
      | '.' :: r3b =>
        let (d4, _) := digitsTake r3b
        if d4.isEmpty then none
        else some (d1 ++ ['.'] ++ d2 ++ ['.'] ++ d3 ++ ['.'] ++ d4)
      | _ => none
    | _ => none
  | _ => none

/-- First-match scan for a dotted quad. -/
def ipv4Scan : List Char → Option (List Char)
  | [] => none
  | c :: rest =>
    match ipv4At (c :: rest) with
    | some m => some m
    | none => ipv4Scan rest

/-- Address extraction of deployVM (line 260): first dotted-quad match in
    the ARP output. -/
def matchIPv4 (s : String) : Option String := (ipv4Scan s.data).map String.mk

/-- VMID allocation loop of deployVM (src/unnamed/part_000, lines 198 to
    210): from the random base, probe qm status; a succeeding probe means the
    id is taken so the loop advances, a rejecting probe means the id is free
    and the loop breaks.  At most 100 probing attempts happen and, when all
    of them find taken ids, the loop falls through with the next id and NO
    error of any kind. -/
def allocLoop (env : SshEnv) : Nat → Nat → M Nat
  | vmid, 0 => mPure vmid
  | vmid, fuel+1 => fun tr =>
    match execSSHM env (statusCmd vmid) tr with
    | (.ok _, tr2) => allocLoop env (vmid+1) fuel tr2
    | (.error _, tr2) => (.ok vmid, tr2)

/-- Template existence check of deployVM (lines 191 to 196): a failing test
    command is caught and rethrown as the template-not-found error. -/
def templateCheck (env : SshEnv) (vmName : String) : M Unit :=
  catchM (do let _ ← execSSHM env (testCmd vmName); pure ())
    (fun _ => throwM ("Template " ++ vmName ++ " not found. Has it been converted?"))

/-- Steps of deployVM before the try block: template check, then allocation
    with the random base 2000 plus rand, where rand models the value of
    Math.floor of Math.random times 8000. -/
def deployAlloc (env : SshEnv) (vmName : String) (rand : Nat) : M Nat := do
  templateCheck env vmName
  allocLoop env (2000 + rand) 100

/-- Message returned in place of an address when polling is exhausted. -/
def waitingMsg : String := "Waiting for network... Check Proxmox console"

/-- Record returned by a successful deploy. -/
structure DeployResult where
  vmid : Nat
  name : String
  ipAddress : String
  startTime : String
  expiresAt : String
deriving Repr, DecidableEq

/-- Assembly of the deploy return value (lines 274 to 280); a missing
    address falls back to the waiting message via logical-or. -/
def deployRecord (vmid : Nat) (displayName startIso expIso : String) (ip : Option String) :
    DeployResult :=
  { vmid := vmid, name := displayName,
    ipAddress := match ip with | some s => s | none => waitingMsg,
    startTime := startIso, expiresAt := expIso }

/-- One polling attempt (lines 252 to 269): re-read the config, extract the
    hardware address, cross-reference the ARP table; any thrown error inside
    the attempt is caught and the loop just continues. -/
def attemptIP (env : SshEnv) (vmid : Nat) : M (Option String) :=
  catchM
    (do
      let cfg ← execSSHM env (configCmd vmid)
      match matchVirtioMac cfg with
      | some mac => do
        let arp ← execSSHM env (arpCmd mac)
        pure (matchIPv4 arp)
      | none => pure none)
    (fun _ => pure none)

/-- Address polling loop of deployVM (lines 249 to 270): up to the given
    number of attempts, each preceded by a five-second sleep, stopping at the
    first match. -/
def pollIP (env : SshEnv) (vmid : Nat) : Nat → M (Option String)
  | 0 => pure none
  | fuel+1 => do
    sleepM 5000
    let r ← attemptIP env vmid
    match r with
    | some ip => pure (some ip)
    | none => pollIP env vmid fuel

/-- Creation steps inside the try block of deployVM (lines 214 to 243):
    create the shell, import the disk, attach and configure it, write the
    metadata description, start the VM. -/
def creationSteps (env : SshEnv) (vmid : Nat) (displayName metaJson : String)
    (memory cores : Nat) (vmName : String) : M Unit := do
  let _ ← execSSHM env (createCmd vmid displayName memory cores)
  let _ ← execSSHM env (importdiskCmd vmid (diskPathOf vmName))
  let _ ← execSSHM env (scsiCmd vmid)
  let _ ← execSSHM env (bootCmd vmid)
  let _ ← execSSHM env (vgaCmd vmid)
  let _ ← execSSHM env (descCmd vmid metaJson)
  let _ ← execSSHM env (startCmd vmid)
  pure ()

/-- Whole try block of deployVM: creation steps, then the polling loop, then
    the result record. -/
def deployBody (env : SshEnv) (vmid : Nat) (displayName metaJson startIso expIso : String)
    (memory cores : Nat) (vmName : String) : M DeployResult := do
  creationSteps env vmid displayName metaJson memory cores vmName
  let ip ← pollIP env vmid 12
  pure (deployRecord vmid displayName startIso expIso ip)

/-- Catch block of deployVM (lines 282 to 289): best-effort destroy of the
    partially created VM, its own failure swallowed, then rethrow of the
    original error. -/
def deployCleanup (env : SshEnv) (vmid : Nat) (err : String) : M DeployResult := do
  catchM (do let _ ← execSSHM env (destroyCleanupCmd vmid); pure ()) (fun _ => pure ())
  throwM err

/-- deployVM (src/unnamed/part_000, lines 185 to 290).  The serialized
    metadata blob and the two timestamp strings are parameters because they
    embed wall-clock readings; rand models the random draw in [0, 8000). -/
def deployVM (env : SshEnv) (rand : Nat) (vmName username metaJson startIso expIso : String)
    (memory : Nat := 2048) (cores : Nat := 2) : M DeployResult := do
  let vmid ← deployAlloc env vmName rand
  catchM
    (deployBody env vmid (vmName ++ "-" ++ username) metaJson startIso expIso memory cores vmName)
    (deployCleanup env vmid)

/-- Result of stopVM. -/
structure StopResult where
  vmid : Nat
  message : String
deriving Repr, DecidableEq

/-- Ownership phase of stopVM (lines 296 to 307): read the config and throw
    when the requester name is not a substring of it; the catch turns a
    does-not-exist failure into an early already-deleted success and
    rethrows anything else. -/
def stopOwnershipPhase (env : SshEnv) (vmid : Nat) (username : String) : M (Option StopResult) :=
  catchM
    (do
      let config ← execSSHM env (configCmd vmid)
      if jsIncludes config username then pure none
      else throwM "VM does not belong to you")
    (fun e =>
      if jsIncludes e "does not exist" then pure (some { vmid := vmid, message := "VM already deleted" })
      else throwM e)

/-- stopVM (src/unnamed/part_000, lines 293 to 323): ownership phase, then a
    swallowed graceful stop, a three-second grace sleep, and a destroy with
    purge that may fail the call. -/
def stopVM (env : SshEnv) (vmid : Nat) (username : String) : M StopResult := do
  let early ← stopOwnershipPhase env vmid username
  match early with
  | some r => pure r
  | none => do
    catchM (do let _ ← execSSHM env (stopCmd vmid); pure ()) (fun _ => pure ())
    sleepM 3000
    let _ ← execSSHM env (destroyCmd vmid)
    pure { vmid := vmid, message := "VM stopped and removed" }

/-- Marker preceding the metadata blob in a config dump, as matched by
    getVMStatus (line 332). -/
def descMark : List Char := "description: ".data

/-- First-match scan of the description pattern: the marker followed by at
    least one non-newline character, captured to the end of the line. -/
def descScan : List Char → Option (List Char)
  | [] => none
  | c :: rest =>
    if descMark.isPrefixOf (c :: rest) then
      let cap := ((c :: rest).drop descMark.length).takeWhile (fun ch => ch != Char.ofNat 10)
      if cap.isEmpty then descScan rest else some cap
    else descScan rest

/-- Description-field extraction of getVMStatus (src/unnamed/part_000, line
    332): the captured text is where the VM metadata blob lives, so it is
    the formal reading of the metadata of a VM given its config text. -/
def descriptionText (config : String) : Option String := (descScan config.data).map String.mk

end SshApi

/-- One HTTP request issued to the Proxmox REST API: method, path, and the
    form-encoded body as key-value pairs. -/
structure HttpEv where
  method : String
  path : String
  body : List (String × String)
deriving Repr, DecidableEq

namespace RestApi

/-- encodeComment of the REST module (src/lib/proxmoxApi.js, lines 24 to
    26): the comment is the trimmed full name, a falsy input read as the
    empty string. -/
def encodeComment (fullName : Option String) : String := jsTrim (fullName.getD "")

/-- decodeComment of the REST module (src/lib/proxmoxApi.js, lines 29 to
    33): the comment IS the full name; there is no parsing step, so no input
    can fail, and the email field is always empty. -/
def decodeComment (comment : Option String) : UserMeta :=
  { email := "", fullName := jsTrim (comment.getD "") }

/-- Abstract REST endpoint: the outcome of one proxmoxRequest given the
    requests issued so far. -/
structure RestEnv where
  run : List HttpEv → HttpEv → Except String String

/-- proxmoxCreateUser of the REST module (src/lib/proxmoxApi.js, lines 81 to
    95): validates the userid and the password length BEFORE any request is
    issued, then POSTs the form-encoded user; the returned trace lists the
    requests actually issued. -/
def proxmoxCreateUser (renv : RestEnv) (tr : List HttpEv) (userid fullName password : String) :
    Except String String × List HttpEv :=
  if userid = "" then (.error "Missing userid", tr)
  else if password = "" ∨ password.length < 8 then
    (.error "Password must be at least 8 characters", tr)
  else
    let ev : HttpEv :=
      ⟨"POST", "/access/users",
        [("userid", userid), ("password", password),
         ("comment", encodeComment (some fullName)), ("enable", "1")]⟩
    match renv.run tr ev with
    | .ok _ => (.ok userid, tr ++ [ev])
    | .error e => (.error e, tr ++ [ev])

end RestApi

namespace Import

/-- One row outcome of the bulk import; absent JavaScript object fields are
    none. -/
structure ImportResult where
  ok : Bool
  userid : Option String
  fullName : Option String
  error : Option String
deriving Repr, DecidableEq

/-- Split a character list at every occurrence of the separator. -/
def splitOnChar (sep : Char) (cs : List Char) : List (List Char) :=
  cs.foldr
    (fun c acc =>
      match acc with
      | first :: restGroups => if c = sep then [] :: first :: restGroups else (c :: first) :: restGroups
      | [] => [[c]])
    [[]]

/-- Model of the JavaScript split on a one-character separator. -/
def splitString (sep : Char) (s : String) : List String := (splitOnChar sep s.data).map String.mk

/-- parseCsv (src/pages/admin-import-users.js, lines 368 to 387): split into
    lines (the JS regex also eats a carriage return before a newline, which
    the trim below removes in either reading), trim them, drop blanks; the
    first line is the header and the rest are data rows, all comma-split and
    trimmed.  Rows are kept as raw column lists next to the header. -/
def parseCsv (text : String) : List String × List (List String) :=
  let lines := ((splitString (Char.ofNat 10) text).map jsTrim).filter (fun l => l.length > 0)
  match lines with
  | [] => ([], [])
  | h :: rest =>
    ((splitString ',' h).map jsTrim, rest.map (fun line => (splitString ',' line).map jsTrim))

/-- Column extraction: the handler builds a row object by assigning
    obj of header i to cols i or the empty string; a repeated header name
    keeps the last assignment and a missing cell reads as empty. -/
def lookupCol (header cols : List String) (name : String) : String :=
  header.enum.foldl (fun acc hi => if hi.2 = name then cols.getD hi.1 "" else acc) ""

/-- normalize (src/pages/admin-import-users.js, lines 389 to 394):
    lowercase, trim, then keep only ascii lowercase letters and digits
    (Char.toLower models toLowerCase on the ascii range used here). -/
def normalize (s : String) : String :=
  String.mk ((jsTrimL (s.data.map Char.toLower)).filter
    (fun c => (decide ('a' ≤ c) && decide (c ≤ 'z')) || (decide ('0' ≤ c) && decide (c ≤ '9'))))

/-- buildBaseUsername (lines 396 to 401): first letter of the normalized
    first name concatenated with the normalized last name; empty when either
    normalization is empty. -/
def buildBaseUsername (firstName lastName : String) : String :=
  let f := normalize firstName
  let l := normalize lastName
  if f = "" ∨ l = "" then ""
  else String.mk (f.data.take 1) ++ l

/-- Candidate usernames tried by the collision loop: the base itself, then
    the base with the counter rendered in decimal appended. -/
def candidate (base : String) (k : Nat) : String :=
  if k = 0 then base else base ++ natStr k

/-- Candidate identifier at the realm. -/
def fullId (base realm : String) (k : Nat) : String := candidate base k ++ "@" ++ realm

/-- Collision loop of the import handler (lines 454 to 458): starting from
    the bare base name, bump the numeric suffix while the identifier is
    taken.  Fuel-based; fuel ids.length plus one always reaches a free
    candidate because the candidates are pairwise distinct. -/
def firstFreeIdx (ids : List String) (base realm : String) : Nat → Nat → Nat
  | 0, k => k
  | fuel+1, k =>
    if ids.contains (fullId base realm k) then firstFreeIdx ids base realm fuel (k+1) else k

/-- Final collision-free username for a base against the identifier set. -/
def uniqueUsername (ids : List String) (base realm : String) : String :=
  candidate base (firstFreeIdx ids base realm (ids.length + 1) 0)

/-- State carried across rows: the identifier set (existing plus issued this
    batch), the results so far, and the userids for which the remote create
    was actually invoked (instrumentation of the remote mutating calls). -/
structure ImportState where
  ids : List String
  results : List ImportResult
  calls : List String
deriving Repr, DecidableEq

/-- Loop body of the import handler (src/pages/admin-import-users.js, lines
    430 to 478) for one row. -/
def processRow (create : String → String → String → Except String Unit) (realm : String)
    (header : List String) (st : ImportState) (cols : List String) : ImportState :=
  let firstName := lookupCol header cols "first_name"
  let lastName := lookupCol header cols "last_name"
  let password := jsTrim (lookupCol header cols "password")
  if firstName = "" ∨ lastName = "" then
    { st with results := st.results ++
        [{ ok := false, userid := none, fullName := none, error := some "Missing first_name or last_name" }] }
  else if password = "" ∨ password.length < 8 then
    { st with results := st.results ++
        [{ ok := false, userid := none, fullName := none, error := some "Password must be at least 8 characters" }] }
  else
    let base := buildBaseUsername firstName lastName
    if base = "" then
      { st with results := st.results ++
          [{ ok := false, userid := none, fullName := none, error := some "Invalid name values" }] }
    else
      let username := uniqueUsername st.ids base realm
      let userid := username ++ "@" ++ realm
      let fullName := firstName ++ " " ++ lastName
      match create userid fullName password with
      | .ok _ =>
        { ids := st.ids ++ [userid],
          results := st.results ++
            [{ ok := true, userid := some userid, fullName := some fullName, error := none }],
          calls := st.calls ++ [userid] }
      | .error e =>
        { st with
          results := st.results ++
            [{ ok := false, userid := some userid, fullName := none, error := some e }],
          calls := st.calls ++ [userid] }

/-- Response shape of the import handler. -/
structure ImportResponse where
  total : Nat
  success : Nat
  failed : Nat
  results : List ImportResult
deriving Repr, DecidableEq

/-- Aggregation at the end of the handler (lines 480 to 495): both counts
    are derived from the per-row results. -/
def importResponse (results : List ImportResult) : ImportResponse :=
  let success := (results.filter (fun r => r.ok)).length
  { total := results.length, success := success, failed := results.length - success,
    results := results }

/-- importUsers handler (src/pages/admin-import-users.js, lines 403 to 499)
    after method routing: parse the csv, reject wholesale when a required
    column is missing from the header, otherwise fold the row processor over
    all rows starting from the identifier set fetched once up front. -/
def importHandler (create : String → String → String → Except String Unit)
    (realm : String) (existingIds : List String) (csv : String) :
    Except String ImportResponse :=
  let parsed := parseCsv csv
  let header := parsed.1
  let rows := parsed.2
  if ¬ header.contains "first_name" then .error "CSV missing column: first_name"
  else if ¬ header.contains "last_name" then .error "CSV missing column: last_name"
  else if ¬ header.contains "password" then .error "CSV missing column: password"
  else
    let final := rows.foldl (processRow create realm header)
      { ids := existingIds, results := [], calls := [] }
    .ok (importResponse final.results)

end Import

/-- Events of the first n allocation probes from a base identifier. -/
def probeEvs (base : Nat) (n : Nat) : List Ev :=
  (List.range n).map (fun i => Ev.exec (SshApi.statusCmd (base + i)))

/-- Sleep event test, used to count polling attempts in a trace. -/
def isSleepEv : Ev → Bool
  | .sleep _ => true
  | .exec _ => false

/- Application lemmas for the effect monad: every combinator applied to a
   trace, as a plain equation. -/

theorem mBind_app {α β : Type} (x : M α) (f : α → M β) (tr : List Ev) :
    (x >>= f) tr =
      match x tr with
      | (.ok a, t) => f a t
      | (.error e, t) => (.error e, t) := rfl

theorem pure_app {α : Type} (a : α) (tr : List Ev) : (pure a : M α) tr = (.ok a, tr) := rfl

theorem mPure_app {α : Type} (a : α) (tr : List Ev) : mPure a tr = (.ok a, tr) := rfl

theorem throwM_app {α : Type} (e : String) (tr : List Ev) :
    (throwM e : M α) tr = (.error e, tr) := rfl

theorem catchM_app {α : Type} (x : M α) (h : String → M α) (tr : List Ev) :
    catchM x h tr =
      match x tr with
      | (.ok a, t) => (.ok a, t)
      | (.error e, t) => h e t := rfl

theorem execSSHM_app (env : SshEnv) (cmd : String) (tr : List Ev) :
    execSSHM env cmd tr =
      match env.run tr cmd with
      | .ok out => (.ok out, tr ++ [.exec cmd])
      | .error e => (.error e, tr ++ [.exec cmd]) := rfl

theorem sleepM_app (ms : Nat) (tr : List Ev) : sleepM ms tr = (.ok (), tr ++ [.sleep ms]) := rfl

/-- C10: the exit handler of execSSH resolves with the trimmed stdout
    whenever the remote exit code is nonzero but stderr is empty, and it
    rejects with a command failure exactly when the exit code is nonzero and
    stderr is nonempty. -/
theorem execSSH_exit_code_stderr (code : Int) (output errorOutput : String) :
    ((code ≠ 0 ∧ errorOutput = "") →
      execSSHResult code output errorOutput = .ok (jsTrim output)) ∧
    ((∃ e, execSSHResult code output errorOutput = .error e) ↔
      (code ≠ 0 ∧ errorOutput ≠ "")) := by
  constructor
  · rintro ⟨hc, he⟩
    simp [execSSHResult, he]
  · constructor
    · rintro ⟨e, he⟩
      by_contra hcon
      rw [execSSHResult, if_neg hcon] at he
      exact Except.noConfusion he
    · intro h
      exact ⟨_, by rw [execSSHResult, if_pos h]⟩

/-- C10 witness: a nonzero exit with empty stderr resolves; a nonzero exit
    with stderr rejects. -/
theorem execSSH_exit_code_stderr_witness :
    execSSHResult 2 " out " "" = .ok (jsTrim " out ") ∧
    (∃ e, execSSHResult 2 "x" "boom" = .error e) :=
  ⟨(execSSH_exit_code_stderr 2 " out " "").1 ⟨by decide, rfl⟩,
   (execSSH_exit_code_stderr 2 "x" "boom").2.mpr ⟨by decide, by decide⟩⟩

/-- C7: stopping a VM whose config read fails with a does-not-exist message
    returns the already-deleted success; nothing beyond the config read is
    issued. -/
theorem stopVM_nonexistent_already_deleted (env : SshEnv) (vmid : Nat) (username : String)
    (tr : List Ev) (e : String)
    (hrun : env.run tr (SshApi.configCmd vmid) = .error e)
    (hmsg : jsIncludes e "does not exist" = true) :
    SshApi.stopVM env vmid username tr =
      (.ok { vmid := vmid, message := "VM already deleted" },
       tr ++ [Ev.exec (SshApi.configCmd vmid)]) := by
  have h1 : SshApi.stopOwnershipPhase env vmid username tr =
      (.ok (some { vmid := vmid, message := "VM already deleted" }),
       tr ++ [Ev.exec (SshApi.configCmd vmid)]) := by
    simp only [SshApi.stopOwnershipPhase, catchM_app, mBind_app, execSSHM_app, hrun, hmsg,
      throwM_app, pure_app, if_true]
  simp only [SshApi.stopVM, mBind_app, h1, pure_app]

/-- C7 witness: a concrete endpoint rejecting the config read with a
    does-not-exist message. -/
theorem stopVM_nonexistent_already_deleted_witness :
    SshApi.stopVM ⟨fun _ _ => .error "Configuration file 4242.conf does not exist"⟩
      4242 "alice" [] =
      (.ok { vmid := 4242, message := "VM already deleted" },
       [Ev.exec (SshApi.configCmd 4242)]) :=
  stopVM_nonexistent_already_deleted
    ⟨fun _ _ => .error "Configuration file 4242.conf does not exist"⟩ 4242 "alice" []
    "Configuration file 4242.conf does not exist" rfl (by decide)

/-- C9: comment decoding never fails and degrades to empty fields.  SSH
    module: a missing or empty comment, and any comment its JSON parse
    rejects, decode to both fields empty.  REST module: decoding is total
    with an always-empty email and the trimmed comment as the full name, so
    a missing comment also gives both fields empty; no parse step exists
    there that could reject an input. -/
theorem decodeComment_tolerant :
    SshApi.decodeComment none = { email := "", fullName := "" } ∧
    SshApi.decodeComment (some "") = { email := "", fullName := "" } ∧
    (∀ c : String, c ≠ "" → SshApi.jsonParseFlatObj c = none →
      SshApi.decodeComment (some c) = { email := "", fullName := "" }) ∧
    RestApi.decodeComment none = { email := "", fullName := "" } ∧
    (∀ s : String, RestApi.decodeComment (some s) = { email := "", fullName := jsTrim s }) := by
  refine ⟨by decide, by decide, ?_, by decide, fun s => rfl⟩
  intro c hne hparse
  simp only [SshApi.decodeComment, if_neg hne, hparse]

/-- C9 witness: a concrete malformed comment decodes to empty fields. -/
theorem decodeComment_tolerant_witness :
    SshApi.decodeComment (some "not a json comment") = { email := "", fullName := "" } :=
  decodeComment_tolerant.2.2.1 "not a json comment" (by decide) (by decide)

/-- C8 counterexample: a config whose only occurrence of the requester name
    is the VM name line, with NO metadata blob at all.  The name is absent
    from the metadata, yet stop does not fail with the ownership error: it
    proceeds and destroys the VM, refuting the claimed equivalence. -/
theorem stopVM_ownership_counterexample :
    SshApi.descriptionText "name: ubuntu-alice" = none ∧
    (SshApi.stopVM
        ⟨fun _ cmd => if cmd = SshApi.configCmd 4242 then .ok "name: ubuntu-alice" else .ok ""⟩
        4242 "alice" []) =
      (.ok { vmid := 4242, message := "VM stopped and removed" },
       [Ev.exec (SshApi.configCmd 4242), Ev.exec (SshApi.stopCmd 4242),
        Ev.sleep 3000, Ev.exec (SshApi.destroyCmd 4242)]) ∧
    ¬ (((SshApi.stopVM
          ⟨fun _ cmd => if cmd = SshApi.configCmd 4242 then .ok "name: ubuntu-alice" else .ok ""⟩
          4242 "alice" []).1 = .error "VM does not belong to you") ↔
        jsIncludes ((SshApi.descriptionText "name: ubuntu-alice").getD "") "alice" = false) := by
  refine ⟨by decide, by decide, by decide⟩

/-- C8 amended: given a successful config read, stopVM refuses with the
    ownership error and issues no stop or destroy exactly when the requester
    name is not a substring of the FULL config text (the check is not scoped
    to the metadata blob); when the name is a substring, the graceful stop,
    the grace sleep and the destroy are all issued. -/
theorem stopVM_ownership_amended (env : SshEnv) (vmid : Nat) (username : String)
    (tr : List Ev) (cfg : String)
    (hrun : env.run tr (SshApi.configCmd vmid) = .ok cfg) :
    (jsIncludes cfg username = false →
      SshApi.stopVM env vmid username tr =
        (.error "VM does not belong to you", tr ++ [Ev.exec (SshApi.configCmd vmid)])) ∧
    (jsIncludes cfg username = true →
      ∃ r, SshApi.stopVM env vmid username tr =
        (r, tr ++ [Ev.exec (SshApi.configCmd vmid), Ev.exec (SshApi.stopCmd vmid),
                   Ev.sleep 3000, Ev.exec (SshApi.destroyCmd vmid)])) := by
  constructor
  · intro hno
    have h1 : SshApi.stopOwnershipPhase env vmid username tr =
        (.error "VM does not belong to you", tr ++ [Ev.exec (SshApi.configCmd vmid)]) := by
      have hre : jsIncludes "VM does not belong to you" "does not exist" = false := by decide
      simp only [SshApi.stopOwnershipPhase, catchM_app, mBind_app, execSSHM_app, hrun, hno,
        throwM_app, pure_app, hre, Bool.false_eq_true, if_false]
    simp only [SshApi.stopVM, mBind_app, h1]
  · intro hyes
    have h1 : SshApi.stopOwnershipPhase env vmid username tr =
        (.ok none, tr ++ [Ev.exec (SshApi.configCmd vmid)]) := by
      simp only [SshApi.stopOwnershipPhase, catchM_app, mBind_app, execSSHM_app, hrun, hyes,
        throwM_app, pure_app, if_true]
    set tr1 := tr ++ [Ev.exec (SshApi.configCmd vmid)] with htr1
    have h2 : ∀ t : List Ev,
        (catchM (do let _ ← execSSHM env (SshApi.stopCmd vmid); pure ()) (fun _ => pure ()) : M Unit) t =
          (.ok (), t ++ [Ev.exec (SshApi.stopCmd vmid)]) := by
      intro t
      simp only [catchM_app, mBind_app, execSSHM_app, pure_app]
      cases env.run t (SshApi.stopCmd vmid) <;> rfl
    cases hdes : env.run (tr1 ++ [Ev.exec (SshApi.stopCmd vmid), Ev.sleep 3000])
        (SshApi.destroyCmd vmid) with
    | ok out =>
      refine ⟨.ok { vmid := vmid, message := "VM stopped and removed" }, ?_⟩
      simp only [SshApi.stopVM, mBind_app, h1, h2, sleepM_app, execSSHM_app, pure_app]
      rw [show tr1 ++ [Ev.exec (SshApi.stopCmd vmid)] ++ [Ev.sleep 3000] =
        tr1 ++ [Ev.exec (SshApi.stopCmd vmid), Ev.sleep 3000] by simp]
      rw [hdes]
      simp [htr1]
    | error e =>
      refine ⟨.error e, ?_⟩
      simp only [SshApi.stopVM, mBind_app, h1, h2, sleepM_app, execSSHM_app, pure_app]
      rw [show tr1 ++ [Ev.exec (SshApi.stopCmd vmid)] ++ [Ev.sleep 3000] =
        tr1 ++ [Ev.exec (SshApi.stopCmd vmid), Ev.sleep 3000] by simp]
      rw [hdes]
      simp [htr1]

/-- C8 amended witness: a requester name absent from the config text is
    refused with only the config read issued; a present name reaches the
    destroy path. -/
theorem stopVM_ownership_amended_witness :
    (SshApi.stopVM ⟨fun _ _ => .ok "name: ubuntu-alice"⟩ 4242 "bob" [] =
      (.error "VM does not belong to you", [Ev.exec (SshApi.configCmd 4242)])) ∧
    (∃ r, SshApi.stopVM ⟨fun _ _ => .ok "name: ubuntu-alice"⟩ 4242 "alice" [] =
      (r, [Ev.exec (SshApi.configCmd 4242), Ev.exec (SshApi.stopCmd 4242),
           Ev.sleep 3000, Ev.exec (SshApi.destroyCmd 4242)])) :=
  ⟨(stopVM_ownership_amended ⟨fun _ _ => .ok "name: ubuntu-alice"⟩ 4242 "bob" []
      "name: ubuntu-alice" rfl).1 (by decide),
   (stopVM_ownership_amended ⟨fun _ _ => .ok "name: ubuntu-alice"⟩ 4242 "alice" []
      "name: ubuntu-alice" rfl).2 (by decide)⟩

/-- C2: when the try block of deployVM fails after identifier allocation,
    the catch issues the best-effort destroy of the partially created VM and
    rethrows the ORIGINAL error; whether the destroy itself succeeds or
    fails changes nothing (its failure is swallowed). -/
theorem deployVM_cleanup_on_failure (env : SshEnv) (rand : Nat)
    (vmName username metaJson startIso expIso : String) (memory cores : Nat)
    (tr0 tr1 tr2 : List Ev) (vmid : Nat) (e : String)
    (halloc : SshApi.deployAlloc env vmName rand tr0 = (.ok vmid, tr1))
    (hbody : SshApi.deployBody env vmid (vmName ++ "-" ++ username) metaJson startIso expIso
        memory cores vmName tr1 = (.error e, tr2)) :
    SshApi.deployVM env rand vmName username metaJson startIso expIso memory cores tr0 =
      (.error e, tr2 ++ [Ev.exec (SshApi.destroyCleanupCmd vmid)]) := by
  simp only [SshApi.deployVM, mBind_app, halloc, catchM_app, hbody, SshApi.deployCleanup,
    execSSHM_app, pure_app, throwM_app]
  cases env.run tr2 (SshApi.destroyCleanupCmd vmid) <;> rfl

/-- C2 witness: an endpoint whose disk import fails and whose cleanup
    destroy ALSO fails; the deploy still reports the disk-import error, with
    the destroy issued after the failing import. -/
theorem deployVM_cleanup_on_failure_witness :
    SshApi.deployVM
      ⟨fun _ cmd =>
        if cmd = SshApi.statusCmd 2000 then .error "free"
        else if cmd = SshApi.importdiskCmd 2000 (SshApi.diskPathOf "ubuntu") then
          .error "disk import failed"
        else if cmd = SshApi.destroyCleanupCmd 2000 then .error "cleanup failed"
        else .ok ""⟩
      0 "ubuntu" "alice" "META" "T1" "T2" 2048 2 [] =
      (.error "disk import failed",
       [Ev.exec (SshApi.testCmd "ubuntu"), Ev.exec (SshApi.statusCmd 2000),
        Ev.exec (SshApi.createCmd 2000 "ubuntu-alice" 2048 2),
        Ev.exec (SshApi.importdiskCmd 2000 (SshApi.diskPathOf "ubuntu")),
        Ev.exec (SshApi.destroyCleanupCmd 2000)]) :=
  deployVM_cleanup_on_failure
    ⟨fun _ cmd =>
      if cmd = SshApi.statusCmd 2000 then .error "free"
      else if cmd = SshApi.importdiskCmd 2000 (SshApi.diskPathOf "ubuntu") then
        .error "disk import failed"
      else if cmd = SshApi.destroyCleanupCmd 2000 then .error "cleanup failed"
      else .ok ""⟩
    0 "ubuntu" "alice" "META" "T1" "T2" 2048 2 []
    [Ev.exec (SshApi.testCmd "ubuntu"), Ev.exec (SshApi.statusCmd 2000)]
    [Ev.exec (SshApi.testCmd "ubuntu"), Ev.exec (SshApi.statusCmd 2000),
     Ev.exec (SshApi.createCmd 2000 "ubuntu-alice" 2048 2),
     Ev.exec (SshApi.importdiskCmd 2000 (SshApi.diskPathOf "ubuntu"))]
    2000 "disk import failed" (by decide) (by decide)

/-- Unrolling of the probe event list by one probe at the front. -/
theorem probeEvs_succ (base m : Nat) :
    probeEvs base (m+1) = Ev.exec (SshApi.statusCmd base) :: probeEvs (base+1) m := by
  unfold probeEvs
  rw [List.range_succ_eq_map]
  simp only [List.map_cons, List.map_map, Nat.add_zero]
  congr 1
  apply List.map_congr_left
  intro i _
  have : base + (i + 1) = base + 1 + i := by omega
  simp [Function.comp, this]

/-- Characterization of the allocation loop: for some k bounded by the fuel,
    the loop returns base plus k, probing exactly the first min (k+1) fuel
    candidates; every probe before k found a taken id, and when k is below
    the fuel the probe at k found the id free. -/
theorem allocLoop_spec (env : SshEnv) :
    ∀ (fuel vmid : Nat) (tr : List Ev), ∃ k, k ≤ fuel ∧
      SshApi.allocLoop env vmid fuel tr =
        (.ok (vmid + k), tr ++ probeEvs vmid (min (k+1) fuel)) ∧
      (∀ i, i < k →
        ∃ out, env.run (tr ++ probeEvs vmid i) (SshApi.statusCmd (vmid + i)) = .ok out) ∧
      (k < fuel →
        ∃ e, env.run (tr ++ probeEvs vmid k) (SshApi.statusCmd (vmid + k)) = .error e) := by
  intro fuel
  induction fuel with
  | zero =>
    intro vmid tr
    refine ⟨0, Nat.le_refl 0, ?_, ?_, ?_⟩
    · simp [SshApi.allocLoop, mPure_app, probeEvs]
    · intro i hi; omega
    · intro h; omega
  | succ fuel ih =>
    intro vmid tr
    cases hprobe : env.run tr (SshApi.statusCmd vmid) with
    | error e =>
      refine ⟨0, Nat.zero_le _, ?_, ?_, ?_⟩
      · have : SshApi.allocLoop env vmid (fuel+1) tr =
            (.ok vmid, tr ++ [Ev.exec (SshApi.statusCmd vmid)]) := by
          simp only [SshApi.allocLoop, execSSHM_app, hprobe]
        rw [this]
        have hmin : min (0+1) (fuel+1) = 1 := by omega
        rw [hmin]
        simp [probeEvs, List.range_succ]
      · intro i hi; omega
      · intro _
        exact ⟨e, by simpa [probeEvs] using hprobe⟩
    | ok out =>
      obtain ⟨k, hk, heq, hocc, hfree⟩ := ih (vmid+1) (tr ++ [Ev.exec (SshApi.statusCmd vmid)])
      refine ⟨k+1, by omega, ?_, ?_, ?_⟩
      · have hstep : SshApi.allocLoop env vmid (fuel+1) tr =
            SshApi.allocLoop env (vmid+1) fuel (tr ++ [Ev.exec (SshApi.statusCmd vmid)]) := by
          simp only [SshApi.allocLoop, execSSHM_app, hprobe]
        rw [hstep, heq]
        have h1 : vmid + 1 + k = vmid + (k + 1) := by omega
        have h2 : min (k + 1 + 1) (fuel + 1) = min (k+1) fuel + 1 := Nat.succ_min_succ _ _
        rw [h1, h2, probeEvs_succ]
        simp
      · intro i hi
        cases i with
        | zero =>
          exact ⟨out, by simpa [probeEvs] using hprobe⟩
        | succ j =>
          obtain ⟨o, ho⟩ := hocc j (by omega)
          refine ⟨o, ?_⟩
          have h1 : vmid + (j + 1) = vmid + 1 + j := by omega
          rw [h1, probeEvs_succ]
          simpa using ho
      · intro hlt
        obtain ⟨e, he⟩ := hfree (by omega)
        refine ⟨e, ?_⟩
        have h1 : vmid + (k + 1) = vmid + 1 + k := by omega
        rw [h1, probeEvs_succ]
        simpa using he

/-- C1 counterexample: an endpoint on which EVERY status probe succeeds, so
    every candidate identifier corresponds to an existing VM.  All 100
    probes find taken identifiers, yet deploy raises no allocation error at
    all: it proceeds with identifier 2100 (start plus 100, itself never
    probed) and returns a success record. -/
theorem deployVM_allocation_exhausted_counterexample :
    (SshApi.deployVM ⟨fun _ _ => .ok ""⟩ 0 "ubuntu" "alice" "META" "T1" "T2" 2048 2 []).1 =
      .ok { vmid := 2100, name := "ubuntu-alice", ipAddress := SshApi.waitingMsg,
            startTime := "T1", expiresAt := "T2" } := by decide

/-- C1 amended: the starting identifier 2000 plus rand lies in [2000, 9999],
    the loop probes ascending identifiers skipping every one whose status
    probe succeeds, for at most 100 probes; when all 100 probes find taken
    identifiers the loop exits WITHOUT an error and deploy continues with
    identifier start plus 100. -/
theorem allocVMID_amended_spec (env : SshEnv) (rand : Nat) (tr : List Ev)
    (h : rand < 8000) :
    2000 ≤ 2000 + rand ∧ 2000 + rand ≤ 9999 ∧
    ∃ k, k ≤ 100 ∧
      SshApi.allocLoop env (2000 + rand) 100 tr =
        (.ok (2000 + rand + k), tr ++ probeEvs (2000 + rand) (min (k+1) 100)) ∧
      (∀ i, i < k → ∃ out, env.run (tr ++ probeEvs (2000 + rand) i)
          (SshApi.statusCmd (2000 + rand + i)) = .ok out) ∧
      (k < 100 → ∃ e, env.run (tr ++ probeEvs (2000 + rand) k)
          (SshApi.statusCmd (2000 + rand + k)) = .error e) :=
  ⟨by omega, by omega, allocLoop_spec env 100 (2000 + rand) tr⟩

/-- C1 amended witness: an endpoint with every identifier free; the first
    probe breaks the loop. -/
theorem allocVMID_amended_spec_witness :
    2000 ≤ 2000 + 5 ∧ 2000 + 5 ≤ 9999 ∧
    ∃ k, k ≤ 100 ∧
      SshApi.allocLoop ⟨fun _ _ => .error "no such vm"⟩ (2000 + 5) 100 [] =
        (.ok (2000 + 5 + k), [] ++ probeEvs (2000 + 5) (min (k+1) 100)) ∧
      (∀ i, i < k → ∃ out, SshEnv.run ⟨fun _ _ => .error "no such vm"⟩
          ([] ++ probeEvs (2000 + 5) i) (SshApi.statusCmd (2000 + 5 + i)) = .ok out) ∧
      (k < 100 → ∃ e, SshEnv.run ⟨fun _ _ => .error "no such vm"⟩
          ([] ++ probeEvs (2000 + 5) k) (SshApi.statusCmd (2000 + 5 + k)) = .error e) :=
  allocVMID_amended_spec ⟨fun _ _ => .error "no such vm"⟩ 5 [] (by decide)

/-- Head characters distinguish the ARP command from the config command. -/
theorem arpCmd_ne_configCmd (mac : String) (vmid : Nat) :
    SshApi.arpCmd mac ≠ SshApi.configCmd vmid := by
  intro h
  have h1 : (SshApi.arpCmd mac).data.head? = some 'a' := rfl
  have h2 : (SshApi.configCmd vmid).data.head? = some 'q' := rfl
  rw [h, h2] at h1
  simp at h1

/-- One polling attempt: it always returns ok, appends the config-read event
    and possibly one ARP lookup event, and never sleeps. -/
theorem attemptIP_spec (env : SshEnv) (vmid : Nat) (tr : List Ev) :
    ∃ (opt : Option String) (extra : List Ev),
      SshApi.attemptIP env vmid tr =
        (.ok opt, (tr ++ [Ev.exec (SshApi.configCmd vmid)]) ++ extra) ∧
      (extra = [] ∨ ∃ mac, extra = [Ev.exec (SshApi.arpCmd mac)]) := by
  cases hcfg : env.run tr (SshApi.configCmd vmid) with
  | error e =>
    refine ⟨none, [], ?_, Or.inl rfl⟩
    simp only [SshApi.attemptIP, catchM_app, mBind_app, execSSHM_app, hcfg, pure_app,
      List.append_nil]
  | ok cfg =>
    cases hmac : SshApi.matchVirtioMac cfg with
    | none =>
      refine ⟨none, [], ?_, Or.inl rfl⟩
      simp only [SshApi.attemptIP, catchM_app, mBind_app, execSSHM_app, hcfg, hmac, pure_app,
        List.append_nil]
    | some mac =>
      cases harp : env.run (tr ++ [Ev.exec (SshApi.configCmd vmid)]) (SshApi.arpCmd mac) with
      | ok arp =>
        refine ⟨SshApi.matchIPv4 arp, [Ev.exec (SshApi.arpCmd mac)], ?_, Or.inr ⟨mac, rfl⟩⟩
        simp only [SshApi.attemptIP, catchM_app, mBind_app, execSSHM_app, hcfg, hmac, harp,
          pure_app]
      | error e =>
        refine ⟨none, [Ev.exec (SshApi.arpCmd mac)], ?_, Or.inr ⟨mac, rfl⟩⟩
        simp only [SshApi.attemptIP, catchM_app, mBind_app, execSSHM_app, hcfg, hmac, harp,
          pure_app]

/-- Polling loop characterization: it always succeeds, appends at most fuel
    sleep events, each of 5000 milliseconds, pairs every sleep with exactly
    one config re-read, and consumes ALL its fuel exactly when no address
    was found. -/
theorem pollIP_spec (env : SshEnv) (vmid : Nat) :
    ∀ (fuel : Nat) (tr : List Ev), ∃ (opt : Option String) (ds : List Ev),
      SshApi.pollIP env vmid fuel tr = (.ok opt, tr ++ ds) ∧
      ds.countP isSleepEv ≤ fuel ∧
      ds.countP (fun e => decide (e = Ev.exec (SshApi.configCmd vmid))) = ds.countP isSleepEv ∧
      (∀ ms, Ev.sleep ms ∈ ds → ms = 5000) ∧
      (opt = none → ds.countP isSleepEv = fuel) := by
  intro fuel
  induction fuel with
  | zero =>
    intro tr
    refine ⟨none, [], ?_, by simp, by simp, by simp, fun _ => by simp⟩
    simp [SshApi.pollIP, pure_app]
  | succ fuel ih =>
    intro tr
    obtain ⟨opt1, extra, hatt, hextra⟩ := attemptIP_spec env vmid (tr ++ [Ev.sleep 5000])
    have hex1 : extra.countP isSleepEv = 0 := by
      rcases hextra with rfl | ⟨mac, rfl⟩
      · rfl
      · simp [List.countP_cons, isSleepEv]
    have hex2 : extra.countP (fun e => decide (e = Ev.exec (SshApi.configCmd vmid))) = 0 := by
      rcases hextra with rfl | ⟨mac, rfl⟩
      · rfl
      · simp [List.countP_cons, arpCmd_ne_configCmd mac vmid]
    have hex3 : ∀ ms, Ev.sleep ms ∉ extra := by
      rcases hextra with rfl | ⟨mac, rfl⟩ <;> simp
    cases opt1 with
    | some ip =>
      refine ⟨some ip, [Ev.sleep 5000, Ev.exec (SshApi.configCmd vmid)] ++ extra,
        ?_, ?_, ?_, ?_, ?_⟩
      · simp only [SshApi.pollIP, mBind_app, sleepM_app, hatt, pure_app]
        simp [List.append_assoc]
      · simp [List.countP_append, List.countP_cons, isSleepEv, hex1]
      · simp [List.countP_append, List.countP_cons, isSleepEv, hex1, hex2]
      · intro ms hms
        simp at hms
        rcases hms with h | h
        · exact h
        · exact absurd h (hex3 ms)
      · intro h; simp at h
    | none =>
      obtain ⟨opt2, ds2, hrec, h2a, h2b, h2c, h2d⟩ :=
        ih (((tr ++ [Ev.sleep 5000]) ++ [Ev.exec (SshApi.configCmd vmid)]) ++ extra)
      refine ⟨opt2, ([Ev.sleep 5000, Ev.exec (SshApi.configCmd vmid)] ++ extra) ++ ds2,
        ?_, ?_, ?_, ?_, ?_⟩
      · simp only [SshApi.pollIP, mBind_app, sleepM_app, hatt, pure_app, hrec]
        simp [List.append_assoc]
      · simp [List.countP_append, List.countP_cons, isSleepEv, hex1]
        omega
      · simp only [List.countP_append, List.countP_cons, List.countP_nil]
        simp [isSleepEv, hex1, hex2, h2b]
      · intro ms hms
        simp at hms
        rcases hms with h | h | h
        · exact h
        · exact absurd h (hex3 ms)
        · exact h2c ms h
      · intro h
        have := h2d h
        simp only [List.countP_append, List.countP_cons, List.countP_nil]
        simp [isSleepEv, hex1]
        omega

/-- C3: once a deploy reaches the address-discovery phase (the creation
    steps succeeded), the system polls at most 12 times, each attempt
    preceded by a 5000 millisecond sleep and re-reading the VM config
    exactly once, stopping at the first match; when all 12 attempts are
    exhausted the deploy still SUCCEEDS, returning the record whose address
    is the explicit address-pending marker. -/
theorem deployVM_poll_spec (env : SshEnv) (vmid : Nat)
    (displayName metaJson startIso expIso : String) (memory cores : Nat) (vmName : String)
    (tr tr1 : List Ev)
    (hcreate : SshApi.creationSteps env vmid displayName metaJson memory cores vmName tr =
      (.ok (), tr1)) :
    ∃ (opt : Option String) (ds : List Ev),
      SshApi.pollIP env vmid 12 tr1 = (.ok opt, tr1 ++ ds) ∧
      SshApi.deployBody env vmid displayName metaJson startIso expIso memory cores vmName tr =
        (.ok (SshApi.deployRecord vmid displayName startIso expIso opt), tr1 ++ ds) ∧
      ds.countP isSleepEv ≤ 12 ∧
      ds.countP (fun e => decide (e = Ev.exec (SshApi.configCmd vmid))) = ds.countP isSleepEv ∧
      (∀ ms, Ev.sleep ms ∈ ds → ms = 5000) ∧
      (opt = none → ds.countP isSleepEv = 12 ∧
        (SshApi.deployRecord vmid displayName startIso expIso opt).ipAddress =
          SshApi.waitingMsg) ∧
      (∀ ip, opt = some ip →
        (SshApi.deployRecord vmid displayName startIso expIso opt).ipAddress = ip) := by
  obtain ⟨opt, ds, hpoll, hle, hcfg, hms, hexh⟩ := pollIP_spec env vmid 12 tr1
  refine ⟨opt, ds, hpoll, ?_, hle, hcfg, hms, ?_, ?_⟩
  · simp only [SshApi.deployBody, mBind_app, hcreate, hpoll, pure_app]
  · intro h
    exact ⟨hexh h, by simp [SshApi.deployRecord, h]⟩
  · intro ip h
    simp [SshApi.deployRecord, h]

/-- C3 witness: an endpoint whose config reads return no hardware address,
    so the polling exhausts its 12 attempts and the deploy body still
    returns a success record carrying the waiting marker. -/
theorem deployVM_poll_spec_witness :
    ∃ (opt : Option String) (ds : List Ev),
      SshApi.pollIP ⟨fun _ _ => .ok ""⟩ 2000 12
        [Ev.exec (SshApi.createCmd 2000 "ubuntu-alice" 2048 2),
         Ev.exec (SshApi.importdiskCmd 2000 (SshApi.diskPathOf "ubuntu")),
         Ev.exec (SshApi.scsiCmd 2000), Ev.exec (SshApi.bootCmd 2000),
         Ev.exec (SshApi.vgaCmd 2000), Ev.exec (SshApi.descCmd 2000 "META"),
         Ev.exec (SshApi.startCmd 2000)] =
        (.ok opt,
         [Ev.exec (SshApi.createCmd 2000 "ubuntu-alice" 2048 2),
          Ev.exec (SshApi.importdiskCmd 2000 (SshApi.diskPathOf "ubuntu")),
          Ev.exec (SshApi.scsiCmd 2000), Ev.exec (SshApi.bootCmd 2000),
          Ev.exec (SshApi.vgaCmd 2000), Ev.exec (SshApi.descCmd 2000 "META"),
          Ev.exec (SshApi.startCmd 2000)] ++ ds) ∧
      SshApi.deployBody ⟨fun _ _ => .ok ""⟩ 2000 "ubuntu-alice" "META" "T1" "T2" 2048 2
          "ubuntu" [] =
        (.ok (SshApi.deployRecord 2000 "ubuntu-alice" "T1" "T2" opt),
         [Ev.exec (SshApi.createCmd 2000 "ubuntu-alice" 2048 2),
          Ev.exec (SshApi.importdiskCmd 2000 (SshApi.diskPathOf "ubuntu")),
          Ev.exec (SshApi.scsiCmd 2000), Ev.exec (SshApi.bootCmd 2000),
          Ev.exec (SshApi.vgaCmd 2000), Ev.exec (SshApi.descCmd 2000 "META"),
          Ev.exec (SshApi.startCmd 2000)] ++ ds) ∧
      ds.countP isSleepEv ≤ 12 ∧
      ds.countP (fun e => decide (e = Ev.exec (SshApi.configCmd 2000))) = ds.countP isSleepEv ∧
      (∀ ms, Ev.sleep ms ∈ ds → ms = 5000) ∧
      (opt = none → ds.countP isSleepEv = 12 ∧
        (SshApi.deployRecord 2000 "ubuntu-alice" "T1" "T2" opt).ipAddress =
          SshApi.waitingMsg) ∧
      (∀ ip, opt = some ip →
        (SshApi.deployRecord 2000 "ubuntu-alice" "T1" "T2" opt).ipAddress = ip) :=
  deployVM_poll_spec ⟨fun _ _ => .ok ""⟩ 2000 "ubuntu-alice" "META" "T1" "T2" 2048 2 "ubuntu"
    []
    [Ev.exec (SshApi.createCmd 2000 "ubuntu-alice" 2048 2),
     Ev.exec (SshApi.importdiskCmd 2000 (SshApi.diskPathOf "ubuntu")),
     Ev.exec (SshApi.scsiCmd 2000), Ev.exec (SshApi.bootCmd 2000),
     Ev.exec (SshApi.vgaCmd 2000), Ev.exec (SshApi.descCmd 2000 "META"),
     Ev.exec (SshApi.startCmd 2000)]
    (by decide)

/-- Every processed row contributes exactly one result, whatever branch of
    the row body it takes. -/
theorem processRow_pushes_one (create : String → String → String → Except String Unit)
    (realm : String) (header : List String) (st : Import.ImportState) (cols : List String) :
    ∃ r, (Import.processRow create realm header st cols).results = st.results ++ [r] := by
  simp only [Import.processRow]
  repeat' split
  all_goals exact ⟨_, rfl⟩

/-- The fold of the row processor appends exactly one result per input row. -/
theorem foldl_processRow_length (create : String → String → String → Except String Unit)
    (realm : String) (header : List String) :
    ∀ (rows : List (List String)) (st : Import.ImportState),
      ((rows.foldl (Import.processRow create realm header) st).results).length =
        st.results.length + rows.length := by
  intro rows
  induction rows with
  | nil => intro st; simp
  | cons c cs ih =>
    intro st
    obtain ⟨r, hr⟩ := processRow_pushes_one create realm header st c
    rw [List.foldl_cons, ih, hr]
    simp [List.length_append]
    omega

/-- C5: a bulk-import request that passes header validation returns a
    response whose total equals success plus failed, whose results sequence
    has length total, and which carries exactly one result per parsed input
    row, so one row never aborts the processing of the remaining rows. -/
theorem importHandler_counts_spec (create : String → String → String → Except String Unit)
    (realm : String) (existingIds : List String) (csv : String)
    (resp : Import.ImportResponse)
    (h : Import.importHandler create realm existingIds csv = .ok resp) :
    resp.total = resp.success + resp.failed ∧
    resp.results.length = resp.total ∧
    resp.results.length = (Import.parseCsv csv).2.length := by
  unfold Import.importHandler at h
  dsimp only at h
  split_ifs at h
  rw [Except.ok.injEq] at h
  subst h
  set rs := (((Import.parseCsv csv).2).foldl
    (Import.processRow create realm (Import.parseCsv csv).1)
    { ids := existingIds, results := [], calls := [] }).results with hrs
  have hle : (rs.filter (fun r => r.ok)).length ≤ rs.length := List.length_filter_le _ _
  have hlen : rs.length = (Import.parseCsv csv).2.length := by
    rw [hrs, foldl_processRow_length]
    simp
  refine ⟨?_, ?_, ?_⟩
  · simp only [Import.importResponse]
    omega
  · simp only [Import.importResponse]
  · simp only [Import.importResponse]
    exact hlen

/-- C5 witness: a concrete two-row batch with one failing row; counts add up
    and each row has its result. -/
theorem importHandler_counts_spec_witness :
    ({ total := 2, success := 1, failed := 1,
       results := [{ ok := true, userid := some "jdoe@pve", fullName := some "John Doe",
                     error := none },
                   { ok := false, userid := none, fullName := none,
                     error := some "Missing first_name or last_name" }] } :
        Import.ImportResponse).total =
      ({ total := 2, success := 1, failed := 1,
         results := [{ ok := true, userid := some "jdoe@pve", fullName := some "John Doe",
                       error := none },
                     { ok := false, userid := none, fullName := none,
                       error := some "Missing first_name or last_name" }] } :
          Import.ImportResponse).success +
      ({ total := 2, success := 1, failed := 1,
         results := [{ ok := true, userid := some "jdoe@pve", fullName := some "John Doe",
                       error := none },
                     { ok := false, userid := none, fullName := none,
                       error := some "Missing first_name or last_name" }] } :
          Import.ImportResponse).failed ∧
    ({ total := 2, success := 1, failed := 1,
       results := [{ ok := true, userid := some "jdoe@pve", fullName := some "John Doe",
                     error := none },
                   { ok := false, userid := none, fullName := none,
                     error := some "Missing first_name or last_name" }] } :
        Import.ImportResponse).results.length =
      ({ total := 2, success := 1, failed := 1,
         results := [{ ok := true, userid := some "jdoe@pve", fullName := some "John Doe",
                       error := none },
                     { ok := false, userid := none, fullName := none,
                       error := some "Missing first_name or last_name" }] } :
          Import.ImportResponse).total ∧
    ({ total := 2, success := 1, failed := 1,
       results := [{ ok := true, userid := some "jdoe@pve", fullName := some "John Doe",
                     error := none },
                   { ok := false, userid := none, fullName := none,
                     error := some "Missing first_name or last_name" }] } :
        Import.ImportResponse).results.length =
      (Import.parseCsv "first_name,last_name,password\nJohn,Doe,password123\nJane,,short").2.length :=
  importHandler_counts_spec (fun _ _ _ => .ok ()) "pve" []
    "first_name,last_name,password\nJohn,Doe,password123\nJane,,short"
    { total := 2, success := 1, failed := 1,
      results := [{ ok := true, userid := some "jdoe@pve", fullName := some "John Doe",
                    error := none },
                  { ok := false, userid := none, fullName := none,
                    error := some "Missing first_name or last_name" }] }
    (by decide)

/-- C4 counterexample: the SSH-module createUser issues the remote mutating
    pveum user add command for a 3-character password and resolves without
    any validation error, so the claim that BOTH transport implementations
    reject short passwords without a remote call is false. -/
theorem sshCreateUser_short_password_counterexample :
    ("abc".length < 8) ∧
    SshApi.proxmoxCreateUser ⟨fun _ _ => .ok ""⟩ "jdoe@pve" "John Doe" "abc" [] =
      (.ok { userid := "jdoe@pve", fullName := "John Doe" },
       [Ev.exec (SshApi.userAddCmd "jdoe@pve" "John Doe" "abc")]) ∧
    ([Ev.exec (SshApi.userAddCmd "jdoe@pve" "John Doe" "abc")] : List Ev) ≠ [] := by
  refine ⟨by decide, by decide, by decide⟩

/-- C4 amended: a password shorter than 8 characters is rejected with a
    validation error and no request is issued by the REST-module createUser,
    and a bulk-import row with a short trimmed password is rejected row
    level with no remote create invoked and the identifier state unchanged;
    the SSH-module createUser however performs NO password validation and
    issues its remote mutating command regardless. -/
theorem createUser_password_validation_amended
    (renv : RestApi.RestEnv) (htr : List HttpEv) (userid fullName password : String)
    (env : SshEnv) (tr : List Ev)
    (create : String → String → String → Except String Unit) (realm : String)
    (header : List String) (st : Import.ImportState) (cols : List String)
    (hp : password.length < 8)
    (hrow : (jsTrim (Import.lookupCol header cols "password")).length < 8) :
    ((RestApi.proxmoxCreateUser renv htr userid fullName password).2 = htr ∧
      ∃ e, (RestApi.proxmoxCreateUser renv htr userid fullName password).1 = .error e) ∧
    ((Import.processRow create realm header st cols).ids = st.ids ∧
      (Import.processRow create realm header st cols).calls = st.calls ∧
      ∃ msg, (Import.processRow create realm header st cols).results =
        st.results ++ [{ ok := false, userid := none, fullName := none, error := some msg }]) ∧
    (∃ res, SshApi.proxmoxCreateUser env userid fullName password tr =
      (res, tr ++ [Ev.exec (SshApi.userAddCmd userid fullName password)])) := by
  refine ⟨?_, ?_, ?_⟩
  · by_cases hu : userid = ""
    · constructor
      · simp [RestApi.proxmoxCreateUser, hu]
      · exact ⟨"Missing userid", by simp [RestApi.proxmoxCreateUser, hu]⟩
    · have hp8 : password = "" ∨ password.length < 8 := Or.inr hp
      constructor
      · simp [RestApi.proxmoxCreateUser, hu, hp8]
      · exact ⟨"Password must be at least 8 characters",
          by simp [RestApi.proxmoxCreateUser, hu, hp8]⟩
  · by_cases hname : Import.lookupCol header cols "first_name" = "" ∨
        Import.lookupCol header cols "last_name" = ""
    · refine ⟨by simp [Import.processRow, hname], by simp [Import.processRow, hname],
        "Missing first_name or last_name", by simp [Import.processRow, hname]⟩
    · have hpw : jsTrim (Import.lookupCol header cols "password") = "" ∨
          (jsTrim (Import.lookupCol header cols "password")).length < 8 := Or.inr hrow
      refine ⟨by simp [Import.processRow, hname, hpw], by simp [Import.processRow, hname, hpw],
        "Password must be at least 8 characters",
        by simp [Import.processRow, hname, hpw]⟩
  · cases hrun : env.run tr (SshApi.userAddCmd userid fullName password) with
    | ok out =>
      exact ⟨.ok { userid := userid, fullName := fullName },
        by simp only [SshApi.proxmoxCreateUser, mBind_app, execSSHM_app, hrun, pure_app]⟩
    | error e =>
      exact ⟨.error e,
        by simp only [SshApi.proxmoxCreateUser, mBind_app, execSSHM_app, hrun, pure_app]⟩

/-- C4 amended witness: a concrete short password; the REST module rejects
    it with no request, the import row is rejected with no create call, and
    the SSH module issues the command anyway. -/
theorem createUser_password_validation_amended_witness :
    ((RestApi.proxmoxCreateUser ⟨fun _ _ => .ok ""⟩ [] "jdoe@pve" "John Doe" "abc").2 = [] ∧
      ∃ e, (RestApi.proxmoxCreateUser ⟨fun _ _ => .ok ""⟩ [] "jdoe@pve" "John Doe" "abc").1 =
        .error e) ∧
    ((Import.processRow (fun _ _ _ => .ok ()) "pve" ["first_name", "last_name", "password"]
        { ids := [], results := [], calls := [] } ["John", "Doe", "abc"]).ids = [] ∧
      (Import.processRow (fun _ _ _ => .ok ()) "pve" ["first_name", "last_name", "password"]
        { ids := [], results := [], calls := [] } ["John", "Doe", "abc"]).calls = [] ∧
      ∃ msg, (Import.processRow (fun _ _ _ => .ok ()) "pve" ["first_name", "last_name", "password"]
        { ids := [], results := [], calls := [] } ["John", "Doe", "abc"]).results =
        [] ++ [{ ok := false, userid := none, fullName := none, error := some msg }]) ∧
    (∃ res, SshApi.proxmoxCreateUser ⟨fun _ _ => .ok ""⟩ "jdoe@pve" "John Doe" "abc" [] =
      (res, [] ++ [Ev.exec (SshApi.userAddCmd "jdoe@pve" "John Doe" "abc")])) :=
  createUser_password_validation_amended ⟨fun _ _ => .ok ""⟩ [] "jdoe@pve" "John Doe" "abc"
    ⟨fun _ _ => .ok ""⟩ [] (fun _ _ _ => .ok ()) "pve" ["first_name", "last_name", "password"]
    { ids := [], results := [], calls := [] } ["John", "Doe", "abc"]
    (by decide) (by decide)

/-- Decimal digit lists produced with sufficient fuel evaluate back to the
    original number and hold only digits below ten. -/
theorem digitsRevAux_spec :
    ∀ (fuel n : Nat), n ≤ fuel →
      ofDigitsRev (digitsRevAux fuel n) = n ∧ ∀ d ∈ digitsRevAux fuel n, d < 10 := by
  intro fuel
  induction fuel with
  | zero =>
    intro n hn
    have : n = 0 := by omega
    subst this
    constructor
    · simp [digitsRevAux, ofDigitsRev]
    · intro d hd
      simp [digitsRevAux] at hd
      omega
  | succ fuel ih =>
    intro n hn
    by_cases h10 : n < 10
    · constructor
      · simp [digitsRevAux, h10, ofDigitsRev]
      · intro d hd
        simp [digitsRevAux, h10] at hd
        omega
    · have hdiv : n / 10 ≤ fuel := by
        have := Nat.div_lt_self (show 0 < n by omega) (show 1 < 10 by omega)
        omega
      obtain ⟨ihv, ihd⟩ := ih (n / 10) hdiv
      constructor
      · have : ofDigitsRev (n % 10 :: digitsRevAux fuel (n / 10)) =
            ofDigitsRev (digitsRevAux fuel (n / 10)) * 10 + n % 10 := rfl
        simp [digitsRevAux, h10, this, ihv]
        omega
      · intro d hd
        simp [digitsRevAux, h10] at hd
        rcases hd with h | h
        · omega
        · exact ihd d h

/-- Mapping digits below ten through digitChar is injective on lists. -/
theorem map_digitChar_inj :
    ∀ (xs ys : List Nat), (∀ x ∈ xs, x < 10) → (∀ y ∈ ys, y < 10) →
      xs.map Nat.digitChar = ys.map Nat.digitChar → xs = ys := by
  have hd : ∀ a < 10, ∀ b < 10, Nat.digitChar a = Nat.digitChar b → a = b := by decide
  intro xs
  induction xs with
  | nil =>
    intro ys _ _ h
    cases ys with
    | nil => rfl
    | cons y ys => simp at h
  | cons x xs ih =>
    intro ys hxs hys h
    cases ys with
    | nil => simp at h
    | cons y ys =>
      simp only [List.map_cons, List.cons.injEq] at h
      have hx : x = y := hd x (hxs x (by simp)) y (hys y (by simp)) h.1
      have := ih ys (fun a ha => hxs a (by simp [ha])) (fun a ha => hys a (by simp [ha])) h.2
      rw [hx, this]

/-- The decimal rendering of naturals is injective. -/
theorem natStr_inj : ∀ a b : Nat, natStr a = natStr b → a = b := by
  intro a b h
  have hdata := congrArg String.data h
  have hmap : ((digitsRev a).reverse).map Nat.digitChar =
      ((digitsRev b).reverse).map Nat.digitChar := hdata
  have ha := digitsRevAux_spec a a (Nat.le_refl a)
  have hb := digitsRevAux_spec b b (Nat.le_refl b)
  have hrev : (digitsRev a).reverse = (digitsRev b).reverse := by
    apply map_digitChar_inj
    · intro x hx
      exact ha.2 x (by simpa using hx)
    · intro y hy
      exact hb.2 y (by simpa using hy)
    · exact hmap
  have hds : digitsRev a = digitsRev b := by
    simpa using congrArg List.reverse hrev
  calc a = ofDigitsRev (digitsRev a) := (ha.1).symm
    _ = ofDigitsRev (digitsRev b) := by rw [hds]
    _ = b := hb.1

/-- The decimal rendering is never the empty string. -/
theorem natStr_ne_empty (n : Nat) : natStr n ≠ "" := by
  intro h
  have hdata := congrArg String.data h
  have hne : digitsRevAux n n ≠ [] := by
    cases n with
    | zero => simp [digitsRevAux]
    | succ m =>
      simp only [digitsRevAux]
      split <;> simp
  have : ((digitsRev n).reverse).map Nat.digitChar = [] := hdata
  simp only [List.map_eq_nil_iff, List.reverse_eq_nil_iff] at this
  exact hne this

/-- Collision candidates with the same base are pairwise distinct. -/
theorem candidate_inj (base : String) :
    ∀ j k : Nat, Import.candidate base j = Import.candidate base k → j = k := by
  have hself : ∀ (s t : String), s = s ++ t → t = "" := by
    intro s t h
    have hlen := congrArg (fun x => x.data.length) h
    simp at hlen
    apply String.ext
    exact List.eq_nil_of_length_eq_zero hlen
  intro j k h
  rcases Nat.eq_zero_or_pos j with hj | hj <;> rcases Nat.eq_zero_or_pos k with hk | hk
  · omega
  · subst hj
    rw [Import.candidate, if_pos rfl, Import.candidate, if_neg (by omega)] at h
    exact absurd (hself base (natStr k) h) (natStr_ne_empty k)
  · subst hk
    rw [Import.candidate, if_neg (by omega), Import.candidate, if_pos rfl] at h
    exact absurd (hself base (natStr j) h.symm) (natStr_ne_empty j)
  · rw [Import.candidate, if_neg (by omega), Import.candidate, if_neg (by omega)] at h
    have hdata := congrArg String.data h
    have : (natStr j).data = (natStr k).data := by
      have h1 : base.data ++ (natStr j).data = base.data ++ (natStr k).data := hdata
      exact List.append_cancel_left h1
    exact natStr_inj j k (String.ext this)

/-- Full candidate identifiers with the same base and realm are pairwise
    distinct. -/
theorem fullId_inj (base realm : String) :
    Function.Injective (Import.fullId base realm) := by
  intro j k h
  apply candidate_inj base
  have hdata := congrArg String.data h
  have h1 : ((Import.candidate base j).data ++ "@".data) ++ realm.data =
      ((Import.candidate base k).data ++ "@".data) ++ realm.data := by
    simpa [Import.fullId] using hdata
  have h2 := List.append_cancel_right h1
  have h3 := List.append_cancel_right h2
  exact String.ext h3

/-- Pigeonhole for the collision loop: among the first length-plus-one
    candidates at least one is not in the identifier list. -/
theorem exists_free_candidate (ids : List String) (base realm : String) :
    ∃ j, j ≤ ids.length ∧ Import.fullId base realm j ∉ ids := by
  by_contra hall
  push_neg at hall
  have hsub : ((List.range (ids.length + 1)).map (Import.fullId base realm)) ⊆ ids := by
    intro x hx
    simp only [List.mem_map, List.mem_range] at hx
    obtain ⟨j, hj, rfl⟩ := hx
    exact hall j (by omega)
  have hnd : ((List.range (ids.length + 1)).map (Import.fullId base realm)).Nodup :=
    (List.nodup_range (ids.length + 1)).map (fullId_inj base realm)
  have hle := (hnd.subperm hsub).length_le
  simp at hle

/-- When some candidate within the fuel window is free, the collision loop
    stops at a free candidate. -/
theorem firstFreeIdx_free (ids : List String) (base realm : String) :
    ∀ (fuel k : Nat),
      (∃ j, k ≤ j ∧ j < k + fuel ∧ Import.fullId base realm j ∉ ids) →
      Import.fullId base realm (Import.firstFreeIdx ids base realm fuel k) ∉ ids := by
  intro fuel
  induction fuel with
  | zero =>
    intro k hex
    obtain ⟨j, hj1, hj2, _⟩ := hex
    omega
  | succ fuel ih =>
    intro k hex
    simp only [Import.firstFreeIdx]
    by_cases hc : ids.contains (Import.fullId base realm k) = true
    · rw [if_pos hc]
      apply ih
      obtain ⟨j, hj1, hj2, hj3⟩ := hex
      have hkmem : Import.fullId base realm k ∈ ids := by simpa using hc
      have hne : j ≠ k := by
        rintro rfl
        exact hj3 hkmem
      exact ⟨j, by omega, by omega, hj3⟩
    · rw [if_neg hc]
      intro hmem
      exact hc (by simpa using hmem)

/-- Every candidate before the one the collision loop stops at is taken. -/
theorem firstFreeIdx_min (ids : List String) (base realm : String) :
    ∀ (fuel k j : Nat), k ≤ j → j < Import.firstFreeIdx ids base realm fuel k →
      Import.fullId base realm j ∈ ids := by
  intro fuel
  induction fuel with
  | zero =>
    intro k j h1 h2
    simp only [Import.firstFreeIdx] at h2
    omega
  | succ fuel ih =>
    intro k j h1 h2
    simp only [Import.firstFreeIdx] at h2
    by_cases hc : ids.contains (Import.fullId base realm k) = true
    · rw [if_pos hc] at h2
      rcases Nat.eq_or_lt_of_le h1 with heq | hlt
      · subst heq
        simpa using hc
      · exact ih (k+1) j (by omega) h2
    · rw [if_neg hc] at h2
      omega

/-- The issued username is the candidate at the first free index: it is not
    in the identifier list, and every earlier candidate is. -/
theorem uniqueUsername_spec (ids : List String) (base realm : String) :
    Import.uniqueUsername ids base realm =
      Import.candidate base (Import.firstFreeIdx ids base realm (ids.length + 1) 0) ∧
    Import.fullId base realm (Import.firstFreeIdx ids base realm (ids.length + 1) 0) ∉ ids ∧
    ∀ j, j < Import.firstFreeIdx ids base realm (ids.length + 1) 0 →
      Import.fullId base realm j ∈ ids := by
  refine ⟨rfl, ?_, ?_⟩
  · apply firstFreeIdx_free
    obtain ⟨j, hj, hfree⟩ := exists_free_candidate ids base realm
    exact ⟨j, by omega, by omega, hfree⟩
  · intro j hj
    exact firstFreeIdx_min ids base realm (ids.length + 1) 0 j (by omega) hj

/-- A valid row whose creation succeeds appends the created identifier to
    the state and records a success result. -/
theorem processRow_success_step (create : String → String → String → Except String Unit)
    (realm : String) (header : List String) (st : Import.ImportState) (cols : List String)
    (f l p b : String)
    (hf : Import.lookupCol header cols "first_name" = f)
    (hl : Import.lookupCol header cols "last_name" = l)
    (hp : jsTrim (Import.lookupCol header cols "password") = p)
    (hfne : f ≠ "") (hlne : l ≠ "")
    (hplen : ¬(p = "" ∨ p.length < 8))
    (hb : Import.buildBaseUsername f l = b) (hbne : b ≠ "")
    (hcreate : create (Import.uniqueUsername st.ids b realm ++ "@" ++ realm)
        (f ++ " " ++ l) p = .ok ()) :
    Import.processRow create realm header st cols =
      { ids := st.ids ++ [Import.uniqueUsername st.ids b realm ++ "@" ++ realm],
        results := st.results ++
          [{ ok := true, userid := some (Import.uniqueUsername st.ids b realm ++ "@" ++ realm),
             fullName := some (f ++ " " ++ l), error := none }],
        calls := st.calls ++ [Import.uniqueUsername st.ids b realm ++ "@" ++ realm] } := by
  have hname : ¬(f = "" ∨ l = "") := by
    rintro (h | h)
    · exact hfne h
    · exact hlne h
  simp only [Import.processRow, hf, hl, hp, hb]
  rw [if_neg hname, if_neg hplen, if_neg hbne, hcreate]

/-- C6: in a batch of two otherwise-valid rows normalizing to the same base
    username, with remote creation succeeding, both rows succeed and the
    second row is issued a candidate with a numeric suffix (index at least
    one) distinct from the first row identifier and from every existing
    identifier. -/
theorem import_duplicate_base_suffix
    (create : String → String → String → Except String Unit) (realm : String)
    (header : List String) (ids0 : List String) (cols1 cols2 : List String)
    (f1 l1 p1 f2 l2 p2 b : String)
    (hf1 : Import.lookupCol header cols1 "first_name" = f1)
    (hl1 : Import.lookupCol header cols1 "last_name" = l1)
    (hp1 : jsTrim (Import.lookupCol header cols1 "password") = p1)
    (hf2 : Import.lookupCol header cols2 "first_name" = f2)
    (hl2 : Import.lookupCol header cols2 "last_name" = l2)
    (hp2 : jsTrim (Import.lookupCol header cols2 "password") = p2)
    (hf1ne : f1 ≠ "") (hl1ne : l1 ≠ "") (hf2ne : f2 ≠ "") (hl2ne : l2 ≠ "")
    (hp1len : ¬(p1 = "" ∨ p1.length < 8)) (hp2len : ¬(p2 = "" ∨ p2.length < 8))
    (hb1 : Import.buildBaseUsername f1 l1 = b) (hb2 : Import.buildBaseUsername f2 l2 = b)
    (hbne : b ≠ "")
    (hcreate : ∀ u fn pw, create u fn pw = .ok ()) :
    ∃ k1 k2 : Nat,
      ([cols1, cols2].foldl (Import.processRow create realm header)
          { ids := ids0, results := [], calls := [] }).results =
        [{ ok := true, userid := some (Import.fullId b realm k1),
           fullName := some (f1 ++ " " ++ l1), error := none },
         { ok := true, userid := some (Import.fullId b realm k2),
           fullName := some (f2 ++ " " ++ l2), error := none }] ∧
      1 ≤ k2 ∧
      Import.fullId b realm k2 ≠ Import.fullId b realm k1 ∧
      Import.fullId b realm k2 ∉ ids0 := by
  have hstep1 := processRow_success_step create realm header
    { ids := ids0, results := [], calls := [] } cols1 f1 l1 p1 b
    hf1 hl1 hp1 hf1ne hl1ne hp1len hb1 hbne (hcreate _ _ _)
  have hu1 : Import.uniqueUsername ids0 b realm ++ "@" ++ realm =
      Import.fullId b realm (Import.firstFreeIdx ids0 b realm (ids0.length + 1) 0) := rfl
  rw [hu1] at hstep1
  set k1 := Import.firstFreeIdx ids0 b realm (ids0.length + 1) 0 with hk1
  set u1 := Import.fullId b realm k1 with hu1def
  set ids1 := ids0 ++ [u1] with hids1
  have hstep2 := processRow_success_step create realm header
    { ids := ids1,
      results := [{ ok := true, userid := some u1,
                    fullName := some (f1 ++ " " ++ l1), error := none }],
      calls := [u1] } cols2 f2 l2 p2 b
    hf2 hl2 hp2 hf2ne hl2ne hp2len hb2 hbne (hcreate _ _ _)
  have hu2 : Import.uniqueUsername ids1 b realm ++ "@" ++ realm =
      Import.fullId b realm (Import.firstFreeIdx ids1 b realm (ids1.length + 1) 0) := rfl
  rw [hu2] at hstep2
  set k2 := Import.firstFreeIdx ids1 b realm (ids1.length + 1) 0 with hk2
  set u2 := Import.fullId b realm k2 with hu2def
  have hfold : ([cols1, cols2].foldl (Import.processRow create realm header)
      { ids := ids0, results := [], calls := [] }) =
      Import.processRow create realm header
        (Import.processRow create realm header { ids := ids0, results := [], calls := [] } cols1)
        cols2 := rfl
  have hfree2 := (uniqueUsername_spec ids1 b realm).2.1
  rw [← hk2, ← hu2def] at hfree2
  have hnotin0 : u2 ∉ ids0 := by
    intro h
    exact hfree2 (by simp [hids1, h])
  have hne21 : u2 ≠ u1 := by
    intro h
    exact hfree2 (by simp [hids1, h])
  have hzero_mem : Import.fullId b realm 0 ∈ ids1 := by
    rcases Nat.eq_zero_or_pos k1 with hz | hpos
    · have : u1 = Import.fullId b realm 0 := by rw [hu1def, hz]
      rw [hids1, ← this]
      simp
    · have := (uniqueUsername_spec ids0 b realm).2.2 0 (by omega)
      rw [hids1]
      simp [this]
  have hk2pos : 1 ≤ k2 := by
    by_contra hcon
    have hz : k2 = 0 := by omega
    apply hfree2
    rw [hu2def, hz]
    exact hzero_mem
  refine ⟨k1, k2, ?_, hk2pos, hne21, hnotin0⟩
  rw [hfold, hstep1]
  dsimp only
  simp only [List.nil_append]
  rw [hstep2]
  simp [hu1def, hu2def]

/-- C6 witness: the two rows John Doe and Jane Doe with the base jdoe, an
    empty directory, and a succeeding remote create. -/
theorem import_duplicate_base_suffix_witness :
    ∃ k1 k2 : Nat,
      ([["John", "Doe", "password123"], ["Jane", "Doe", "securepass456"]].foldl
          (Import.processRow (fun _ _ _ => .ok ()) "pve"
            ["first_name", "last_name", "password"])
          { ids := [], results := [], calls := [] }).results =
        [{ ok := true, userid := some (Import.fullId "jdoe" "pve" k1),
           fullName := some ("John" ++ " " ++ "Doe"), error := none },
         { ok := true, userid := some (Import.fullId "jdoe" "pve" k2),
           fullName := some ("Jane" ++ " " ++ "Doe"), error := none }] ∧
      1 ≤ k2 ∧
      Import.fullId "jdoe" "pve" k2 ≠ Import.fullId "jdoe" "pve" k1 ∧
      Import.fullId "jdoe" "pve" k2 ∉ ([] : List String) :=
  import_duplicate_base_suffix (fun _ _ _ => .ok ()) "pve"
    ["first_name", "last_name", "password"] [] ["John", "Doe", "password123"]
    ["Jane", "Doe", "securepass456"] "John" "Doe" "password123" "Jane" "Doe" "securepass456"
    "jdoe" (by decide) (by decide) (by decide) (by decide) (by decide) (by decide)
    (by decide) (by decide) (by decide) (by decide) (by decide) (by decide)
    (by decide) (by decide) (by decide) (fun _ _ _ => rfl)
